import Mathlib

/-!
# Netfilter hook scanner (`src/netfilter_hooks.c`)

A shallow embedding of the three kernel-version variants of the hook-table
locator and of `search_hooks` and `analyze_netfilter` as the 4.14 and 4.16+ variants
have them, followed by the properties established about them.

Conventions of the embedding
* `int pf` is an `Int`, `unsigned int hooknum` is a `Nat`.
* A pointer that may be `NULL` is an `Option`.
* Kernel header constants (`NFPROTO_*`, `NF_MAX_HOOKS`, ...) are not part of the
  source file; they are the fields of `KConsts` and every general theorem
  quantifies over them. `linux` holds the values of the kernel headers.
* Calls with an effect (`mutex_lock`, `ALERT`, ...) append an `Event` to the trace
  of the `World` they run in; the kernel memory travels along in the `World`.
-/

namespace Tyton

/-! ## Kernel constants -/

/-- Constants of the kernel headers that the source refers to by name. -/
structure KConsts where
  NFPROTO_NETDEV : Int
  NFPROTO_ARP : Int
  NFPROTO_BRIDGE : Int
  NFPROTO_IPV4 : Int
  NFPROTO_IPV6 : Int
  NFPROTO_DECNET : Int
  /-- Truth value of `IS_ENABLED(CONFIG_DECNET)`. -/
  CONFIG_DECNET : Bool
  NFPROTO_NUMPROTO : Nat
  NF_MAX_HOOKS : Nat
  NF_NETDEV_INGRESS : Nat
  EINVAL : Int

/-- Values of the constants in the Linux 4.16 headers (`uapi/linux/netfilter.h`,
`linux/netfilter_defs.h`, `uapi/asm-generic/errno-base.h`), DECnet enabled. -/
def linux : KConsts where
  NFPROTO_NETDEV := 5
  NFPROTO_ARP := 3
  NFPROTO_BRIDGE := 7
  NFPROTO_IPV4 := 2
  NFPROTO_IPV6 := 10
  NFPROTO_DECNET := 12
  CONFIG_DECNET := true
  NFPROTO_NUMPROTO := 13
  NF_MAX_HOOKS := 8
  NF_NETDEV_INGRESS := 0
  EINVAL := 22

/-- The `case` labels of the `switch` in the 4.16+ `nf_hook_entry_head` are pairwise
different; C accepts the `switch` only then. The DECnet label is present only when
`CONFIG_DECNET` is enabled. -/
def KConsts.distinctLabels (c : KConsts) : Prop :=
  c.NFPROTO_NETDEV ≠ c.NFPROTO_ARP ∧ c.NFPROTO_NETDEV ≠ c.NFPROTO_BRIDGE ∧
  c.NFPROTO_NETDEV ≠ c.NFPROTO_IPV4 ∧ c.NFPROTO_NETDEV ≠ c.NFPROTO_IPV6 ∧
  c.NFPROTO_ARP ≠ c.NFPROTO_BRIDGE ∧ c.NFPROTO_ARP ≠ c.NFPROTO_IPV4 ∧
  c.NFPROTO_ARP ≠ c.NFPROTO_IPV6 ∧ c.NFPROTO_BRIDGE ≠ c.NFPROTO_IPV4 ∧
  c.NFPROTO_BRIDGE ≠ c.NFPROTO_IPV6 ∧ c.NFPROTO_IPV4 ≠ c.NFPROTO_IPV6 ∧
  (c.CONFIG_DECNET = true →
    c.NFPROTO_DECNET ≠ c.NFPROTO_NETDEV ∧ c.NFPROTO_DECNET ≠ c.NFPROTO_ARP ∧
    c.NFPROTO_DECNET ≠ c.NFPROTO_BRIDGE ∧ c.NFPROTO_DECNET ≠ c.NFPROTO_IPV4 ∧
    c.NFPROTO_DECNET ≠ c.NFPROTO_IPV6)

/-! ## Data model -/

/-- One registered hook, `struct nf_hook_entry`: the address of its callback. -/
structure nf_hook_entry where
  hook : Nat

/-- A hook table, `struct nf_hook_entries`: the counter `num_hook_entries` and the
flexible array `hooks`, read by index. -/
structure nf_hook_entries where
  num_hook_entries : Nat
  hooks : Nat → nf_hook_entry

/-- A slot of type `struct nf_hook_entries __rcu *`: `none` is the absent table. -/
abbrev Slot := Option nf_hook_entries

/-- The per-namespace hook arrays of 4.16+, `struct netns_nf`. `ARRAY_SIZE` of an
array is the length of its list. -/
structure netns_nf where
  hooks_arp : List Slot
  hooks_bridge : List Slot
  hooks_ipv4 : List Slot
  hooks_ipv6 : List Slot
  hooks_decnet : List Slot

/-- A network namespace of 4.16+, `struct net`; `addr` is its address, which is what
`dev_net(dev) == net` compares. -/
structure net where
  addr : Nat
  nf : netns_nf

/-- A network interface, `struct net_device` (4.14 and later): the address of its
namespace, as returned by `dev_net`, and its ingress slot. -/
structure net_device where
  nd_net : Nat
  nf_hooks_ingress : Slot

/-- The namespace an interface belongs to, `dev_net(dev)`. -/
def dev_net (dev : net_device) : Nat := dev.nd_net

/-- A non-NULL result of the 4.16+ locator: which slot the returned
`struct nf_hook_entries __rcu **` points to. -/
inductive SlotRef where
  /-- The pointer `net->nf.hooks_arp + hooknum`. -/
  | hooks_arp (hooknum : Nat)
  /-- The pointer `net->nf.hooks_bridge + hooknum`. -/
  | hooks_bridge (hooknum : Nat)
  /-- The pointer `net->nf.hooks_ipv4 + hooknum`. -/
  | hooks_ipv4 (hooknum : Nat)
  /-- The pointer `net->nf.hooks_ipv6 + hooknum`. -/
  | hooks_ipv6 (hooknum : Nat)
  /-- The pointer `net->nf.hooks_decnet + hooknum`. -/
  | hooks_decnet (hooknum : Nat)
  /-- The pointer `&dev->nf_hooks_ingress`. -/
  | nf_hooks_ingress (dev : net_device)

/-- The namespace of 4.14, whose `net->nf.hooks` is one table
`hooks[NFPROTO_NUMPROTO][NF_MAX_HOOKS]` read by family and hook number. -/
structure net414 where
  addr : Nat
  hooks : Int → Nat → Slot

/-- A non-NULL result of the 4.14 locator. -/
inductive SlotRef414 where
  /-- The pointer `net->nf.hooks[pf] + hooknum`. -/
  | hooks (pf : Int) (hooknum : Nat)
  /-- The pointer `&dev->nf_hooks_ingress`. -/
  | nf_hooks_ingress (dev : net_device)

/-- A registration of the kernels before 4.14, `struct nf_hook_ops`: the callback
address. -/
structure nf_hook_ops where
  hook : Nat

/-- The namespace before 4.14: `net->nf.hooks[pf][hooknum]` is a `struct list_head`,
here the list of the registrations linked into it. -/
structure netOld where
  addr : Nat
  hooks : Int → Nat → List nf_hook_ops

/-- A network interface before 4.14; its `nf_hooks_ingress` is a list head. -/
structure net_deviceOld where
  nd_net : Nat
  nf_hooks_ingress : List nf_hook_ops

/-- A non-NULL result of `nf_find_hook_list`. -/
inductive ListRef where
  /-- The pointer `&net->nf.hooks[pf][hooknum]`. -/
  | hooks (pf : Int) (hooknum : Nat)
  /-- The pointer `&dev->nf_hooks_ingress`. -/
  | nf_hooks_ingress (dev : net_deviceOld)

/-- A loaded module, `struct module`: its name. -/
structure module where
  name : String

/-- The two collaborators declared in `module_list.h`, as functions of the address
they are given. -/
structure Env where
  /-- The registry lookup; `none` is the `NULL` it returns for an unknown address. -/
  get_module_from_addr : Nat → Option module
  /-- The hidden-module search; it returns a name or its placeholder. -/
  find_hidden_module : Nat → String

/-! ## Effects -/

/-- An action visible from outside `search_hooks` and `analyze_netfilter`. -/
inductive Event where
  /-- The call `mutex_lock(&module_mutex)`. -/
  | mutex_lock
  /-- The call `mutex_unlock(&module_mutex)`. -/
  | mutex_unlock
  /-- The call `get_module_from_addr(addr)`. -/
  | get_module_from_addr (addr : Nat)
  /-- The call `find_hidden_module(addr)`. -/
  | find_hidden_module (addr : Nat)
  /-- The call `ALERT(fmt, arg)`. -/
  | ALERT (fmt : String) (arg : String)
  /-- The call `INFO(fmt)`. -/
  | INFO (fmt : String)
  deriving DecidableEq

/-- The state a scan runs in: the kernel memory `K` of the variant and the actions
performed so far, oldest first. -/
structure World (K : Type) where
  kernel : K
  trace : List Event

/-- Append one action to the trace. -/
def World.emit {K : Type} (w : World K) (ev : Event) : World K :=
  { w with trace := w.trace ++ [ev] }

/-- The format string of both `ALERT` calls of `search_hooks`. -/
def hookFmt : String := "Module [%s] controls a Netfilter hook.\n"

/-- The findings of a trace: its `ALERT` actions, in order. -/
def findings (t : List Event) : List Event :=
  t.filter (fun ev => match ev with
    | .ALERT _ _ => true
    | _ => false)

/-- The addresses `find_hidden_module` was called with, in order. -/
def hiddenCalls (t : List Event) : List Nat :=
  t.filterMap (fun ev => match ev with
    | .find_hidden_module a => some a
    | _ => none)

/-- Whether `module_mutex` is held after the actions of `t`, when it was held or not
(`held`) before them. -/
def mutexHeld (held : Bool) (t : List Event) : Bool :=
  t.foldl (fun h ev => match ev with
    | .mutex_lock => true
    | .mutex_unlock => false
    | _ => h) held

/-! ## `search_hooks` (4.14 and 4.16+, the same text) -/

/-- One iteration of the loop of `search_hooks`, at index `i`. -/
def search_hooks_step {K : Type} (env : Env) (e : nf_hook_entries) (i : Nat)
    (w : World K) : World K :=
  let addr := (e.hooks i).hook
  let w1 := w.emit .mutex_lock
  let w2 := w1.emit (.get_module_from_addr addr)
  let w3 :=
    match env.get_module_from_addr addr with
    | some mod => w2.emit (.ALERT hookFmt mod.name)
    | none =>
      let mod_name := env.find_hidden_module addr
      (w2.emit (.find_hidden_module addr)).emit (.ALERT hookFmt mod_name)
  w3.emit .mutex_unlock

/-- The function `search_hooks`: `for (i = 0; i < e->num_hook_entries; i++)`. -/
def search_hooks {K : Type} (env : Env) (e : nf_hook_entries) (w : World K) : World K :=
  (List.range e.num_hook_entries).foldl (fun w i => search_hooks_step env e i w) w

/-! ## The locators -/

/-- The 4.16+ `nf_hook_entry_head`. The `switch` is read label by label; the
`NFPROTO_NETDEV` case leaves the `switch` for the ingress test after it. -/
def nf_hook_entry_head (c : KConsts) (n : net) (pf : Int) (hooknum : Nat)
    (dev : Option net_device) : Option SlotRef :=
  if pf = c.NFPROTO_NETDEV then
    if hooknum = c.NF_NETDEV_INGRESS then
      match dev with
      | some d => if dev_net d = n.addr then some (.nf_hooks_ingress d) else none
      | none => none
    else none
  else if pf = c.NFPROTO_ARP then
    if n.nf.hooks_arp.length ≤ hooknum then none else some (.hooks_arp hooknum)
  else if pf = c.NFPROTO_BRIDGE then
    if n.nf.hooks_bridge.length ≤ hooknum then none else some (.hooks_bridge hooknum)
  else if pf = c.NFPROTO_IPV4 then
    if n.nf.hooks_ipv4.length ≤ hooknum then none else some (.hooks_ipv4 hooknum)
  else if pf = c.NFPROTO_IPV6 then
    if n.nf.hooks_ipv6.length ≤ hooknum then none else some (.hooks_ipv6 hooknum)
  else if c.CONFIG_DECNET = true ∧ pf = c.NFPROTO_DECNET then
    if n.nf.hooks_decnet.length ≤ hooknum then none else some (.hooks_decnet hooknum)
  else none

/-- The 4.14 `nf_hook_entry_head`. -/
def nf_hook_entry_head414 (c : KConsts) (n : net414) (pf : Int) (hooknum : Nat)
    (dev : Option net_device) : Option SlotRef414 :=
  if pf ≠ c.NFPROTO_NETDEV then some (.hooks pf hooknum)
  else if hooknum = c.NF_NETDEV_INGRESS then
    match dev with
    | some d => if dev_net d = n.addr then some (.nf_hooks_ingress d) else none
    | none => none
  else none

/-- The namespace an interface of the kernels before 4.14 belongs to. -/
def dev_netOld (dev : net_deviceOld) : Nat := dev.nd_net

/-- The function `nf_find_hook_list` of the kernels before 4.14. -/
def nf_find_hook_list (c : KConsts) (n : netOld) (pf : Int) (hooknum : Nat)
    (dev : Option net_deviceOld) : Option ListRef :=
  if pf ≠ c.NFPROTO_NETDEV then some (.hooks pf hooknum)
  else if hooknum = c.NF_NETDEV_INGRESS then
    match dev with
    | some d => if dev_netOld d = n.addr then some (.nf_hooks_ingress d) else none
    | none => none
  else none

/-- The read `nf_entry_dereference(*pp)` of 4.16+: the table the slot holds. -/
def nf_entry_dereference (n : net) : SlotRef → Slot
  | .hooks_arp j => (n.nf.hooks_arp.get? j).join
  | .hooks_bridge j => (n.nf.hooks_bridge.get? j).join
  | .hooks_ipv4 j => (n.nf.hooks_ipv4.get? j).join
  | .hooks_ipv6 j => (n.nf.hooks_ipv6.get? j).join
  | .hooks_decnet j => (n.nf.hooks_decnet.get? j).join
  | .nf_hooks_ingress d => d.nf_hooks_ingress

/-- The read `nf_entry_dereference(*pp)` of 4.14. -/
def nf_entry_dereference414 (n : net414) : SlotRef414 → Slot
  | .hooks pf j => n.hooks pf j
  | .nf_hooks_ingress d => d.nf_hooks_ingress

/-! ## `analyze_netfilter` (4.14 and 4.16+, the same text around their locator) -/

/-- The inner loop `for (j = 0; j < NF_MAX_HOOKS; j++)` at family `i`, over the hook
numbers still to visit. `head` is the call `nf_hook_entry_head(&init_net, i, j, NULL)`
and `deref` the read of the slot. The result `some r` is a `return r` out of the
loops, `none` the normal end of the loop. -/
def analyze_hooks {K S : Type} (c : KConsts) (env : Env)
    (head : K → Int → Nat → Option S) (deref : K → S → Slot) (i : Nat) :
    List Nat → World K → Option Int × World K
  | [], w => (none, w)
  | j :: js, w =>
    match head w.kernel (i : Int) j with
    | none => (some (-c.EINVAL), w)
    | some pp =>
      match deref w.kernel pp with
      | none => analyze_hooks c env head deref i js w
      | some p => analyze_hooks c env head deref i js (search_hooks env p w)

/-- The outer loop `for (i = 0; i < NFPROTO_NUMPROTO; i++)`, over the families still
to visit. -/
def analyze_families {K S : Type} (c : KConsts) (env : Env)
    (head : K → Int → Nat → Option S) (deref : K → S → Slot) :
    List Nat → World K → Option Int × World K
  | [], w => (none, w)
  | i :: is, w =>
    match analyze_hooks c env head deref i (List.range c.NF_MAX_HOOKS) w with
    | (some r, w1) => (some r, w1)
    | (none, w1) => analyze_families c env head deref is w1

/-- The body shared by the 4.14 and 4.16+ `analyze_netfilter`: the `INFO` line, the
two loops, and `return 0` when the loops end. -/
def analyze_with {K S : Type} (c : KConsts) (env : Env)
    (head : K → Int → Nat → Option S) (deref : K → S → Slot) (w : World K) :
    Int × World K :=
  let w0 := w.emit (.INFO "Analyzing Netfilter Hooks\n")
  match analyze_families c env head deref (List.range c.NFPROTO_NUMPROTO) w0 with
  | (some r, w1) => (r, w1)
  | (none, w1) => (0, w1)

/-- The 4.16+ `analyze_netfilter`; the kernel memory is `init_net`. -/
def analyze_netfilter (c : KConsts) (env : Env) (w : World net) : Int × World net :=
  analyze_with c env (fun n pf j => nf_hook_entry_head c n pf j none)
    nf_entry_dereference w

/-- The 4.14 `analyze_netfilter`; the kernel memory is `init_net`. -/
def analyze_netfilter414 (c : KConsts) (env : Env) (w : World net414) :
    Int × World net414 :=
  analyze_with c env (fun n pf j => nf_hook_entry_head414 c n pf j none)
    nf_entry_dereference414 w

/-! ## Vocabulary of the properties -/

/-- The name the resolver reports for the address `a`: the name of the module the
registry finds, and what the hidden-module search returns when it finds none. -/
def reportedName (env : Env) (a : Nat) : String :=
  match env.get_module_from_addr a with
  | some mod => mod.name
  | none => env.find_hidden_module a

/-- The actions of one loop iteration of `search_hooks` on the address `a`. -/
def entryTrace (env : Env) (a : Nat) : List Event :=
  match env.get_module_from_addr a with
  | some mod =>
    [.mutex_lock, .get_module_from_addr a, .ALERT hookFmt mod.name, .mutex_unlock]
  | none =>
    [.mutex_lock, .get_module_from_addr a, .find_hidden_module a,
      .ALERT hookFmt (env.find_hidden_module a), .mutex_unlock]

/-- The findings of a table: one per entry `hooks[0]`, ..., `hooks[N-1]`, in that
order, each naming the owner of the entry's callback address. -/
def tableFindings (env : Env) (e : nf_hook_entries) : List Event :=
  (List.range e.num_hook_entries).map
    (fun k => Event.ALERT hookFmt (reportedName env (e.hooks k).hook))

/-- The callback addresses of a table that the registry does not resolve, in the
order of the table. -/
def unresolved (env : Env) (e : nf_hook_entries) : List Nat :=
  (List.range e.num_hook_entries).filterMap
    (fun k => if (env.get_module_from_addr (e.hooks k).hook).isNone
      then some (e.hooks k).hook else none)

/-- The addresses `find_hidden_module` was called with while `module_mutex` was held,
in order; `held` says whether the mutex is held before the first action. -/
def lockedHiddenCalls (held : Bool) : List Event → List Nat
  | [] => []
  | .mutex_lock :: t => lockedHiddenCalls true t
  | .mutex_unlock :: t => lockedHiddenCalls false t
  | .find_hidden_module a :: t =>
    (if held then [a] else []) ++ lockedHiddenCalls held t
  | _ :: t => lockedHiddenCalls held t

/-- The findings of a slot: those of its table, none for the absent table. -/
def slotFindings (env : Env) : Slot → List Event
  | none => []
  | some e => tableFindings env e

/-- The pairs (family, hook number) in the order `analyze_netfilter` visits them:
family `0`, ..., `NFPROTO_NUMPROTO - 1`, and for each `0`, ..., `NF_MAX_HOOKS - 1`. -/
def sweepPairs (c : KConsts) : List (Nat × Nat) :=
  (List.range c.NFPROTO_NUMPROTO).flatMap
    (fun i => (List.range c.NF_MAX_HOOKS).map (fun j => (i, j)))

/-- Whether the locator `head` returns a slot for the pair `p`. -/
def validPair {S : Type} (head : Int → Nat → Option S) (p : Nat × Nat) : Bool :=
  (head (p.1 : Int) p.2).isSome

/-- The findings of the pair `p`: those of the slot the locator returns for it. -/
def pairFindings {S : Type} (env : Env) (head : Int → Nat → Option S) (deref : S → Slot)
    (p : Nat × Nat) : List Event :=
  match head (p.1 : Int) p.2 with
  | none => []
  | some pp => slotFindings env (deref pp)

/-- The findings of the pairs of `ps` that come strictly before the first pair the
locator returns `NULL` for (of all pairs when there is none), in the order of `ps`. -/
def sweepFindings {S : Type} (env : Env) (head : Int → Nat → Option S)
    (deref : S → Slot) (ps : List (Nat × Nat)) : List Event :=
  (ps.takeWhile (validPair head)).flatMap (pairFindings env head deref)

/-- The status of a sweep over `ps`: `0` when the locator returns a slot for every
pair, `-EINVAL` otherwise. -/
def sweepStatus {S : Type} (c : KConsts) (head : Int → Nat → Option S)
    (ps : List (Nat × Nat)) : Int :=
  if ps.all (validPair head) then 0 else -c.EINVAL

/-- The two nested loops of `analyze_netfilter` run as one loop over a list of pairs;
`analyze_families` is shown below to be this loop over `sweepPairs`. -/
def sweepFlat {K S : Type} (c : KConsts) (env : Env)
    (head : K → Int → Nat → Option S) (deref : K → S → Slot) :
    List (Nat × Nat) → World K → Option Int × World K
  | [], w => (none, w)
  | p :: ps, w =>
    match head w.kernel (p.1 : Int) p.2 with
    | none => (some (-c.EINVAL), w)
    | some pp =>
      match deref w.kernel pp with
      | none => sweepFlat c env head deref ps w
      | some e => sweepFlat c env head deref ps (search_hooks env e w)

/-- The table the 4.16+ kernel state `n` holds at the pair `p` of family and hook
number: element `p.2` of the array of family `p.1`, and no table when the family has
no array or the array has no such element. -/
def tableAt (c : KConsts) (n : net) (p : Nat × Nat) : Slot :=
  if (p.1 : Int) = c.NFPROTO_ARP then (n.nf.hooks_arp[p.2]?).join
  else if (p.1 : Int) = c.NFPROTO_BRIDGE then (n.nf.hooks_bridge[p.2]?).join
  else if (p.1 : Int) = c.NFPROTO_IPV4 then (n.nf.hooks_ipv4[p.2]?).join
  else if (p.1 : Int) = c.NFPROTO_IPV6 then (n.nf.hooks_ipv6[p.2]?).join
  else if c.CONFIG_DECNET = true ∧ (p.1 : Int) = c.NFPROTO_DECNET then
    (n.nf.hooks_decnet[p.2]?).join
  else none

/-- The lookups, hidden-module searches and alerts of a trace made while
`module_mutex` was not held; `held` says whether it is held before the first action. -/
def unlockedActions (held : Bool) : List Event → List Event
  | [] => []
  | .mutex_lock :: t => unlockedActions true t
  | .mutex_unlock :: t => unlockedActions false t
  | ev :: t => (if held then [] else [ev]) ++ unlockedActions held t

/-- Whether every `mutex_lock` of a trace finds `module_mutex` free and every
`mutex_unlock` finds it held; `held` says whether it is held before the first action. -/
def lockAlternates (held : Bool) : List Event → Bool
  | [] => true
  | .mutex_lock :: t => !held && lockAlternates true t
  | .mutex_unlock :: t => held && lockAlternates false t
  | _ :: t => lockAlternates held t

/-- The addresses `get_module_from_addr` was called with, in order. -/
def lookupCalls (t : List Event) : List Nat :=
  t.filterMap (fun ev => match ev with
    | .get_module_from_addr a => some a
    | _ => none)

/-- A world with the kernel memory `k` in which nothing has happened yet. -/
def World.fresh {K : Type} (k : K) : World K := ⟨k, []⟩

/-! ## Concrete inputs -/

/-- A registry that knows the module `X` at address 4096 only, and a hidden-module
search that answers `X` as well. -/
def envX : Env where
  get_module_from_addr := fun a => if a = 4096 then some ⟨"X"⟩ else none
  find_hidden_module := fun _ => "X"

/-- A registry that knows the module `M` at the addresses 4096 to 8191, and a
hidden-module search that answers its placeholder. -/
def envM : Env where
  get_module_from_addr := fun a => if 4096 ≤ a ∧ a < 8192 then some ⟨"M"⟩ else none
  find_hidden_module := fun _ => "(null)"

/-- A table with the single entry whose callback is at address `a`. -/
def oneHook (a : Nat) : nf_hook_entries where
  num_hook_entries := 1
  hooks := fun _ => ⟨a⟩

/-- A table with the callbacks 4100, 9000, 4200, in this order. -/
def threeHooks : nf_hook_entries where
  num_hook_entries := 3
  hooks := fun k => if k = 0 then ⟨4100⟩ else if k = 1 then ⟨9000⟩ else ⟨4200⟩

/-- A 4.16 namespace at address 1 with the array sizes of the kernel (ARP 3, bridge 5,
IPv4 5, IPv6 5, DECnet 7) and no hook registered anywhere. -/
def emptyNet : net where
  addr := 1
  nf := {
    hooks_arp := List.replicate 3 none
    hooks_bridge := List.replicate 5 none
    hooks_ipv4 := List.replicate 5 none
    hooks_ipv6 := List.replicate 5 none
    hooks_decnet := List.replicate 7 none }

/-- The namespace `emptyNet` with one hook registered: IPv4, hook number 0, callback
at address 4100. -/
def oneHookNet : net where
  addr := 1
  nf := { emptyNet.nf with
    hooks_ipv4 := [some (oneHook 4100), none, none, none, none] }

/-- A 4.14 namespace at address 1 whose only hook is at IPv4 (family 2), hook number 0,
with its callback at address 4100. -/
def oneHookNet414 : net414 where
  addr := 1
  hooks := fun pf j => if pf = 2 ∧ j = 0 then some (oneHook 4100) else none

/-- A namespace of the kernels before 4.14 at address 1 without any registration. -/
def emptyNetOld : netOld where
  addr := 1
  hooks := fun _ _ => []

/-- An interface of the namespace at address 1 without ingress hooks. -/
def eth0 : net_device where
  nd_net := 1
  nf_hooks_ingress := none

/-- An interface of the namespace at address 2. -/
def eth1 : net_device where
  nd_net := 2
  nf_hooks_ingress := none

/-! ## Lemmas on `search_hooks` -/

theorem emit_kernel {K : Type} (w : World K) (ev : Event) :
    (w.emit ev).kernel = w.kernel := rfl

theorem emit_trace {K : Type} (w : World K) (ev : Event) :
    (w.emit ev).trace = w.trace ++ [ev] := rfl

theorem search_hooks_step_kernel {K : Type} (env : Env) (e : nf_hook_entries) (i : Nat)
    (w : World K) : (search_hooks_step env e i w).kernel = w.kernel := by
  unfold search_hooks_step
  cases h : env.get_module_from_addr (e.hooks i).hook <;> simp [h, emit_kernel]

theorem search_hooks_step_trace {K : Type} (env : Env) (e : nf_hook_entries) (i : Nat)
    (w : World K) :
    (search_hooks_step env e i w).trace = w.trace ++ entryTrace env (e.hooks i).hook := by
  unfold search_hooks_step entryTrace
  cases h : env.get_module_from_addr (e.hooks i).hook <;> simp [h, emit_trace]

theorem foldl_step_kernel {K : Type} (env : Env) (e : nf_hook_entries) (l : List Nat)
    (w : World K) :
    (l.foldl (fun w i => search_hooks_step env e i w) w).kernel = w.kernel := by
  induction l generalizing w with
  | nil => rfl
  | cons i l ih => simp [List.foldl_cons, ih, search_hooks_step_kernel]

theorem foldl_step_trace {K : Type} (env : Env) (e : nf_hook_entries) (l : List Nat)
    (w : World K) :
    (l.foldl (fun w i => search_hooks_step env e i w) w).trace
      = w.trace ++ l.flatMap (fun i => entryTrace env (e.hooks i).hook) := by
  induction l generalizing w with
  | nil => simp
  | cons i l ih => simp [List.foldl_cons, ih, search_hooks_step_trace, List.append_assoc]

theorem search_hooks_kernel {K : Type} (env : Env) (e : nf_hook_entries) (w : World K) :
    (search_hooks env e w).kernel = w.kernel :=
  foldl_step_kernel env e _ w

theorem search_hooks_trace {K : Type} (env : Env) (e : nf_hook_entries) (w : World K) :
    (search_hooks env e w).trace
      = w.trace ++ (List.range e.num_hook_entries).flatMap
          (fun i => entryTrace env (e.hooks i).hook) :=
  foldl_step_trace env e _ w

theorem findings_append (s t : List Event) : findings (s ++ t) = findings s ++ findings t := by
  simp [findings]

theorem hiddenCalls_append (s t : List Event) :
    hiddenCalls (s ++ t) = hiddenCalls s ++ hiddenCalls t := by
  simp [hiddenCalls]

theorem findings_entryTrace (env : Env) (a : Nat) :
    findings (entryTrace env a) = [Event.ALERT hookFmt (reportedName env a)] := by
  unfold entryTrace reportedName
  cases h : env.get_module_from_addr a <;> simp [findings]

theorem hiddenCalls_entryTrace (env : Env) (a : Nat) :
    hiddenCalls (entryTrace env a)
      = if (env.get_module_from_addr a).isNone then [a] else [] := by
  unfold entryTrace
  cases h : env.get_module_from_addr a <;> simp [hiddenCalls]

theorem findings_flatMap_entryTrace (env : Env) (e : nf_hook_entries) (l : List Nat) :
    findings (l.flatMap (fun i => entryTrace env (e.hooks i).hook))
      = l.map (fun k => Event.ALERT hookFmt (reportedName env (e.hooks k).hook)) := by
  induction l with
  | nil => rfl
  | cons i l ih => simp [List.flatMap_cons, findings_append, findings_entryTrace, ih]

theorem hiddenCalls_flatMap_entryTrace (env : Env) (e : nf_hook_entries) (l : List Nat) :
    hiddenCalls (l.flatMap (fun i => entryTrace env (e.hooks i).hook))
      = l.filterMap (fun k => if (env.get_module_from_addr (e.hooks k).hook).isNone
          then some (e.hooks k).hook else none) := by
  induction l with
  | nil => rfl
  | cons i l ih =>
    simp only [List.flatMap_cons, hiddenCalls_append, hiddenCalls_entryTrace, ih]
    cases h : env.get_module_from_addr (e.hooks i).hook <;> simp [List.filterMap_cons, h]

theorem search_hooks_findings {K : Type} (env : Env) (e : nf_hook_entries) (w : World K) :
    findings (search_hooks env e w).trace = findings w.trace ++ tableFindings env e := by
  rw [search_hooks_trace, findings_append, findings_flatMap_entryTrace]
  rfl

theorem search_hooks_hiddenCalls {K : Type} (env : Env) (e : nf_hook_entries)
    (w : World K) :
    hiddenCalls (search_hooks env e w).trace = hiddenCalls w.trace ++ unresolved env e := by
  rw [search_hooks_trace, hiddenCalls_append, hiddenCalls_flatMap_entryTrace]
  rfl

theorem lookupCalls_append (s t : List Event) :
    lookupCalls (s ++ t) = lookupCalls s ++ lookupCalls t := by
  simp [lookupCalls]

theorem lookupCalls_entryTrace (env : Env) (a : Nat) :
    lookupCalls (entryTrace env a) = [a] := by
  unfold entryTrace
  cases h : env.get_module_from_addr a <;> simp [lookupCalls]

theorem search_hooks_lookupCalls {K : Type} (env : Env) (e : nf_hook_entries)
    (w : World K) :
    lookupCalls (search_hooks env e w).trace
      = lookupCalls w.trace ++ (List.range e.num_hook_entries).map (fun k => (e.hooks k).hook) := by
  rw [search_hooks_trace, lookupCalls_append]
  congr 1
  induction List.range e.num_hook_entries with
  | nil => rfl
  | cons i l ih => simp [List.flatMap_cons, lookupCalls_append, lookupCalls_entryTrace, ih]

theorem mutexHeld_append (h : Bool) (s t : List Event) :
    mutexHeld h (s ++ t) = mutexHeld (mutexHeld h s) t := by
  simp [mutexHeld, List.foldl_append]

theorem mutexHeld_cons (h : Bool) (ev : Event) (t : List Event) :
    mutexHeld h (ev :: t) = mutexHeld (mutexHeld h [ev]) t := by
  simp [mutexHeld]

theorem lockedHiddenCalls_append (h : Bool) (s t : List Event) :
    lockedHiddenCalls h (s ++ t)
      = lockedHiddenCalls h s ++ lockedHiddenCalls (mutexHeld h s) t := by
  induction s generalizing h with
  | nil => simp [lockedHiddenCalls, mutexHeld]
  | cons ev s ih =>
    rw [mutexHeld_cons]
    cases ev <;> simp [lockedHiddenCalls, mutexHeld, ih]

theorem mutexHeld_entryTrace (h : Bool) (env : Env) (a : Nat) :
    mutexHeld h (entryTrace env a) = false := by
  unfold entryTrace
  cases hm : env.get_module_from_addr a <;> simp [mutexHeld]

theorem lockedHiddenCalls_entryTrace (h : Bool) (env : Env) (a : Nat) :
    lockedHiddenCalls h (entryTrace env a)
      = if (env.get_module_from_addr a).isNone then [a] else [] := by
  unfold entryTrace
  cases hm : env.get_module_from_addr a <;> simp [lockedHiddenCalls]

theorem lockedHiddenCalls_flatMap (h : Bool) (env : Env) (e : nf_hook_entries)
    (l : List Nat) :
    lockedHiddenCalls h (l.flatMap (fun i => entryTrace env (e.hooks i).hook))
      = l.filterMap (fun k => if (env.get_module_from_addr (e.hooks k).hook).isNone
          then some (e.hooks k).hook else none) := by
  induction l generalizing h with
  | nil => rfl
  | cons i l ih =>
    simp only [List.flatMap_cons, lockedHiddenCalls_append, lockedHiddenCalls_entryTrace, ih]
    cases hm : env.get_module_from_addr (e.hooks i).hook <;> simp [List.filterMap_cons, hm]

theorem mutexHeld_flatMap (h : Bool) (env : Env) (e : nf_hook_entries) (l : List Nat) :
    mutexHeld h (l.flatMap (fun i => entryTrace env (e.hooks i).hook))
      = if l = [] then h else false := by
  induction l generalizing h with
  | nil => simp [mutexHeld]
  | cons i l ih =>
    simp only [List.flatMap_cons, mutexHeld_append, mutexHeld_entryTrace, ih]
    simp

theorem entryTrace_eq (env : Env) (a : Nat) :
    entryTrace env a
      = [Event.mutex_lock, Event.get_module_from_addr a]
        ++ (if (env.get_module_from_addr a).isNone then [Event.find_hidden_module a]
            else [])
        ++ [Event.ALERT hookFmt (reportedName env a), Event.mutex_unlock] := by
  unfold entryTrace reportedName
  cases h : env.get_module_from_addr a <;> simp

theorem unlockedActions_append (h : Bool) (s t : List Event) :
    unlockedActions h (s ++ t)
      = unlockedActions h s ++ unlockedActions (mutexHeld h s) t := by
  induction s generalizing h with
  | nil => simp [unlockedActions, mutexHeld]
  | cons ev s ih =>
    rw [mutexHeld_cons]
    cases ev <;> simp [unlockedActions, mutexHeld, ih]

theorem lockAlternates_append (h : Bool) (s t : List Event) :
    lockAlternates h (s ++ t)
      = (lockAlternates h s && lockAlternates (mutexHeld h s) t) := by
  induction s generalizing h with
  | nil => simp [lockAlternates, mutexHeld]
  | cons ev s ih =>
    rw [mutexHeld_cons]
    cases ev <;> simp [lockAlternates, mutexHeld, ih, Bool.and_assoc]

theorem unlockedActions_entryTrace (h : Bool) (env : Env) (a : Nat) :
    unlockedActions h (entryTrace env a) = [] := by
  unfold entryTrace
  cases hm : env.get_module_from_addr a <;> simp [unlockedActions]

theorem lockAlternates_entryTrace (h : Bool) (env : Env) (a : Nat) :
    lockAlternates h (entryTrace env a) = !h := by
  unfold entryTrace
  cases hm : env.get_module_from_addr a <;> simp [lockAlternates]

theorem unlockedActions_flatMap (h : Bool) (env : Env) (e : nf_hook_entries)
    (l : List Nat) :
    unlockedActions h (l.flatMap (fun i => entryTrace env (e.hooks i).hook)) = [] := by
  induction l generalizing h with
  | nil => rfl
  | cons i l ih =>
    simp [List.flatMap_cons, unlockedActions_append, unlockedActions_entryTrace, ih]

theorem lockAlternates_flatMap (h : Bool) (env : Env) (e : nf_hook_entries)
    (l : List Nat) :
    lockAlternates h (l.flatMap (fun i => entryTrace env (e.hooks i).hook))
      = (decide (l = []) || !h) := by
  induction l generalizing h with
  | nil => simp [lockAlternates]
  | cons i l ih =>
    simp [List.flatMap_cons, lockAlternates_append, lockAlternates_entryTrace,
      mutexHeld_entryTrace, ih]

theorem count_lock_flatMap (env : Env) (e : nf_hook_entries) (l : List Nat) :
    (l.flatMap (fun i => entryTrace env (e.hooks i).hook)).count Event.mutex_lock
      = l.length := by
  induction l with
  | nil => rfl
  | cons i l ih =>
    rw [List.flatMap_cons, List.count_append, ih, entryTrace_eq]
    cases hm : env.get_module_from_addr (e.hooks i).hook <;>
      simp [List.count_cons] <;> omega

theorem count_unlock_flatMap (env : Env) (e : nf_hook_entries) (l : List Nat) :
    (l.flatMap (fun i => entryTrace env (e.hooks i).hook)).count Event.mutex_unlock
      = l.length := by
  induction l with
  | nil => rfl
  | cons i l ih =>
    rw [List.flatMap_cons, List.count_append, ih, entryTrace_eq]
    cases hm : env.get_module_from_addr (e.hooks i).hook <;>
      simp [List.count_cons] <;> omega

/-! ## Properties of `search_hooks` -/

/-- C7: on a table with `N = num_hook_entries` entries `search_hooks` looks up the
addresses `hooks[0].hook`, ..., `hooks[N-1].hook`, each once and in this order, and
emits exactly `N` alerts, the `k`-th of them naming the owner resolved from
`hooks[k].hook`; the kernel memory, the table included, is unchanged. -/
theorem search_hooks_visits_each_once {K : Type} (env : Env) (e : nf_hook_entries)
    (w : World K) :
    lookupCalls (search_hooks env e w).trace
      = lookupCalls w.trace
        ++ (List.range e.num_hook_entries).map (fun k => (e.hooks k).hook) ∧
    findings (search_hooks env e w).trace = findings w.trace ++ tableFindings env e ∧
    (tableFindings env e).length = e.num_hook_entries ∧
    (∀ k, k < e.num_hook_entries →
      (tableFindings env e)[k]?
        = some (Event.ALERT hookFmt (reportedName env (e.hooks k).hook))) ∧
    (search_hooks env e w).kernel = w.kernel := by
  refine ⟨search_hooks_lookupCalls env e w, search_hooks_findings env e w, ?_, ?_,
    search_hooks_kernel env e w⟩
  · simp [tableFindings]
  · intro k hk
    simp [tableFindings, List.getElem?_map, List.getElem?_range hk]

/-- C8 (as stated, refuted): on the table with the single callback 9000, which the
registry `envM` does not resolve, `find_hidden_module` is called while `module_mutex`
is held. -/
theorem hidden_search_under_lock :
    ¬ lockedHiddenCalls false
        (search_hooks envM (oneHook 9000) (World.fresh ())).trace = [] := by
  decide

/-- C8 (amended): for each entry, in the order of the table, `search_hooks` performs
exactly these actions in this order: `mutex_lock`, the registry lookup, the
hidden-module search when the lookup found nothing, the alert, `mutex_unlock`. So the
mutex is taken before the registry lookup and released only after the alert, once per
entry; no lookup, hidden-module search or alert is made without the mutex; every call
of `find_hidden_module`, one per unresolved entry, is made while the mutex is held;
and after a table with at least one entry the mutex is released. -/
theorem hidden_search_holds_lock {K : Type} (env : Env) (e : nf_hook_entries)
    (w : World K) :
    (search_hooks env e w).trace
      = w.trace ++ (List.range e.num_hook_entries).flatMap (fun k =>
          [Event.mutex_lock, Event.get_module_from_addr (e.hooks k).hook]
            ++ (if (env.get_module_from_addr (e.hooks k).hook).isNone
                then [Event.find_hidden_module (e.hooks k).hook] else [])
            ++ [Event.ALERT hookFmt (reportedName env (e.hooks k).hook),
                Event.mutex_unlock]) ∧
    unlockedActions false (search_hooks env e w).trace = unlockedActions false w.trace ∧
    lockAlternates false (search_hooks env e w).trace
      = (lockAlternates false w.trace &&
          (e.num_hook_entries = 0 || !mutexHeld false w.trace)) ∧
    (search_hooks env e w).trace.count Event.mutex_lock
      = w.trace.count Event.mutex_lock + e.num_hook_entries ∧
    (search_hooks env e w).trace.count Event.mutex_unlock
      = w.trace.count Event.mutex_unlock + e.num_hook_entries ∧
    lockedHiddenCalls false (search_hooks env e w).trace
      = lockedHiddenCalls false w.trace ++ unresolved env e ∧
    hiddenCalls (search_hooks env e w).trace = hiddenCalls w.trace ++ unresolved env e ∧
    mutexHeld false (search_hooks env e w).trace
      = (if e.num_hook_entries = 0 then mutexHeld false w.trace else false) := by
  refine ⟨?_, ?_, ?_, ?_, ?_, ?_, search_hooks_hiddenCalls env e w, ?_⟩
  · rw [search_hooks_trace]
    congr 1
    refine List.flatMap_congr ?_
    intro k _
    exact entryTrace_eq env (e.hooks k).hook
  · rw [search_hooks_trace, unlockedActions_append, unlockedActions_flatMap]
    simp
  · rw [search_hooks_trace, lockAlternates_append, lockAlternates_flatMap]
    simp [List.range_eq_nil]
  · rw [search_hooks_trace, List.count_append, count_lock_flatMap]
    simp
  · rw [search_hooks_trace, List.count_append, count_unlock_flatMap]
    simp
  · rw [search_hooks_trace, lockedHiddenCalls_append, lockedHiddenCalls_flatMap]
    rfl
  · rw [search_hooks_trace, mutexHeld_append, mutexHeld_flatMap]
    simp [List.range_eq_nil]

/-- C9 (as stated, refuted): with the registry `envX`, address 4096 resolves to the
module `X` and address 5000 is unresolved, the hidden-module search answers `X`, and
the findings of the two runs are equal. -/
theorem same_finding_both_paths :
    (envX.get_module_from_addr 4096).map (fun mod => mod.name) = some "X" ∧
    (envX.get_module_from_addr 5000).isNone = true ∧
    findings (search_hooks envX (oneHook 4096) (World.fresh ())).trace
      = findings (search_hooks envX (oneHook 5000) (World.fresh ())).trace := by
  decide

/-- C9 (amended): the finding carries the owner's name in one message format and
nothing else. For an entry the registry resolves to a module `mod` and an entry it
does not resolve, the findings of the two runs are equal exactly when the
hidden-module search returns the name of `mod`. -/
theorem finding_keeps_name_only {K : Type} (env : Env) (e1 e2 : nf_hook_entries)
    (i1 i2 : Nat) (mod : module) (w : World K)
    (h1 : env.get_module_from_addr (e1.hooks i1).hook = some mod)
    (h2 : env.get_module_from_addr (e2.hooks i2).hook = none) :
    findings (search_hooks_step env e1 i1 w).trace
        = findings (search_hooks_step env e2 i2 w).trace
      ↔ mod.name = env.find_hidden_module (e2.hooks i2).hook := by
  simp [search_hooks_step_trace, findings_append, findings_entryTrace, reportedName, h1, h2]

/-- Witness of C9 (amended): the two runs of the refutation above. -/
theorem finding_keeps_name_only_witness :
    envX.get_module_from_addr ((oneHook 4096).hooks 0).hook = some ⟨"X"⟩ ∧
    envX.get_module_from_addr ((oneHook 5000).hooks 0).hook = none ∧
    (findings (search_hooks_step envX (oneHook 4096) 0 (World.fresh ())).trace
        = findings (search_hooks_step envX (oneHook 5000) 0 (World.fresh ())).trace
      ↔ "X" = envX.find_hidden_module ((oneHook 5000).hooks 0).hook) :=
  ⟨rfl, rfl,
    finding_keeps_name_only envX (oneHook 4096) (oneHook 5000) 0 0 ⟨"X"⟩ (World.fresh ())
      rfl rfl⟩

/-! ## Properties of the locators -/

/-- C1: with pairwise different `case` labels, the 4.16+ `nf_hook_entry_head` returns
a slot exactly when the family is ARP, bridge, IPv4, IPv6 (DECnet when enabled) and
`hooknum` is below the size of that family's array, or the family is the
network-device one, `hooknum` is `NF_NETDEV_INGRESS` and an interface of the
namespace `net` is supplied. The slot is then element `hooknum` of the family's
array, respectively the ingress slot of the interface. In every other case it
returns `NULL`. -/
theorem nf_hook_entry_head_contract (c : KConsts) (hc : c.distinctLabels) (n : net)
    (pf : Int) (hooknum : Nat) (dev : Option net_device) :
    ((nf_hook_entry_head c n pf hooknum dev).isSome = true ↔
      (pf = c.NFPROTO_ARP ∧ hooknum < n.nf.hooks_arp.length) ∨
      (pf = c.NFPROTO_BRIDGE ∧ hooknum < n.nf.hooks_bridge.length) ∨
      (pf = c.NFPROTO_IPV4 ∧ hooknum < n.nf.hooks_ipv4.length) ∨
      (pf = c.NFPROTO_IPV6 ∧ hooknum < n.nf.hooks_ipv6.length) ∨
      (c.CONFIG_DECNET = true ∧ pf = c.NFPROTO_DECNET ∧
        hooknum < n.nf.hooks_decnet.length) ∨
      (pf = c.NFPROTO_NETDEV ∧ hooknum = c.NF_NETDEV_INGRESS ∧
        ∃ d, dev = some d ∧ dev_net d = n.addr)) ∧
    (pf = c.NFPROTO_ARP → hooknum < n.nf.hooks_arp.length →
      nf_hook_entry_head c n pf hooknum dev = some (.hooks_arp hooknum)) ∧
    (pf = c.NFPROTO_BRIDGE → hooknum < n.nf.hooks_bridge.length →
      nf_hook_entry_head c n pf hooknum dev = some (.hooks_bridge hooknum)) ∧
    (pf = c.NFPROTO_IPV4 → hooknum < n.nf.hooks_ipv4.length →
      nf_hook_entry_head c n pf hooknum dev = some (.hooks_ipv4 hooknum)) ∧
    (pf = c.NFPROTO_IPV6 → hooknum < n.nf.hooks_ipv6.length →
      nf_hook_entry_head c n pf hooknum dev = some (.hooks_ipv6 hooknum)) ∧
    (c.CONFIG_DECNET = true → pf = c.NFPROTO_DECNET →
      hooknum < n.nf.hooks_decnet.length →
      nf_hook_entry_head c n pf hooknum dev = some (.hooks_decnet hooknum)) ∧
    (∀ d, pf = c.NFPROTO_NETDEV → hooknum = c.NF_NETDEV_INGRESS → dev = some d →
      dev_net d = n.addr →
      nf_hook_entry_head c n pf hooknum dev = some (.nf_hooks_ingress d)) := by
  obtain ⟨h1, h2, h3, h4, h5, h6, h7, h8, h9, h10, h11⟩ := hc
  have g1 := Ne.symm h1
  have g2 := Ne.symm h2
  have g3 := Ne.symm h3
  have g4 := Ne.symm h4
  have g5 := Ne.symm h5
  have g6 := Ne.symm h6
  have g7 := Ne.symm h7
  have g8 := Ne.symm h8
  have g9 := Ne.symm h9
  have g10 := Ne.symm h10
  unfold nf_hook_entry_head
  cases hb : c.CONFIG_DECNET
  · by_cases e0 : pf = c.NFPROTO_NETDEV
    · subst e0
      rcases dev with _ | d
      · by_cases e : hooknum = c.NF_NETDEV_INGRESS <;> simp [*]
      · by_cases e : hooknum = c.NF_NETDEV_INGRESS <;>
          by_cases e2 : dev_net d = n.addr <;> simp [*]
    · by_cases e1 : pf = c.NFPROTO_ARP
      · subst e1
        by_cases e : n.nf.hooks_arp.length ≤ hooknum
        · simp [*]
          try omega
        · simp [*]
          try omega
      · by_cases e2 : pf = c.NFPROTO_BRIDGE
        · subst e2
          by_cases e : n.nf.hooks_bridge.length ≤ hooknum
          · simp [*]
            try omega
          · simp [*]
            try omega
        · by_cases e3 : pf = c.NFPROTO_IPV4
          · subst e3
            by_cases e : n.nf.hooks_ipv4.length ≤ hooknum
            · simp [*]
              try omega
            · simp [*]
              try omega
          · by_cases e4 : pf = c.NFPROTO_IPV6
            · subst e4
              by_cases e : n.nf.hooks_ipv6.length ≤ hooknum
              · simp [*]
                try omega
              · simp [*]
                try omega
            · simp [*]
  · obtain ⟨d1, d2, d3, d4, d5⟩ := h11 hb
    have f1 := Ne.symm d1
    have f2 := Ne.symm d2
    have f3 := Ne.symm d3
    have f4 := Ne.symm d4
    have f5 := Ne.symm d5
    by_cases e0 : pf = c.NFPROTO_NETDEV
    · subst e0
      rcases dev with _ | d
      · by_cases e : hooknum = c.NF_NETDEV_INGRESS <;> simp [*]
      · by_cases e : hooknum = c.NF_NETDEV_INGRESS <;>
          by_cases e2 : dev_net d = n.addr <;> simp [*]
    · by_cases e1 : pf = c.NFPROTO_ARP
      · subst e1
        by_cases e : n.nf.hooks_arp.length ≤ hooknum
        · simp [*]
          try omega
        · simp [*]
          try omega
      · by_cases e2 : pf = c.NFPROTO_BRIDGE
        · subst e2
          by_cases e : n.nf.hooks_bridge.length ≤ hooknum
          · simp [*]
            try omega
          · simp [*]
            try omega
        · by_cases e3 : pf = c.NFPROTO_IPV4
          · subst e3
            by_cases e : n.nf.hooks_ipv4.length ≤ hooknum
            · simp [*]
              try omega
            · simp [*]
              try omega
          · by_cases e4 : pf = c.NFPROTO_IPV6
            · subst e4
              by_cases e : n.nf.hooks_ipv6.length ≤ hooknum
              · simp [*]
                try omega
              · simp [*]
                try omega
            · by_cases e5 : pf = c.NFPROTO_DECNET
              · subst e5
                by_cases e : n.nf.hooks_decnet.length ≤ hooknum
                · simp [*]
                  try omega
                · simp [*]
                  try omega
              · simp [*]

/-- Witness of C1: in the namespace `emptyNet` under the kernel's numbering, IPv4
with hook number 0 is located at element 0 of the IPv4 array. -/
theorem nf_hook_entry_head_contract_witness :
    linux.distinctLabels ∧
    nf_hook_entry_head linux emptyNet 2 0 none = some (.hooks_ipv4 0) :=
  ⟨by simp [KConsts.distinctLabels, linux],
    (nf_hook_entry_head_contract linux (by simp [KConsts.distinctLabels, linux])
      emptyNet 2 0 none).2.2.2.1 rfl (by decide)⟩

/-- C2 (as stated, refuted): under the kernel's numbering and without an interface,
the 4.16+ locator returns `NULL` for family 0 with hook number 0 and for IPv4 with
hook number `NF_MAX_HOOKS = 8`, while the 4.14 locator and `nf_find_hook_list` return
a pointer for both. -/
theorem locators_differ :
    (nf_hook_entry_head linux emptyNet 0 0 none).isNone = true ∧
    (nf_hook_entry_head414 linux oneHookNet414 0 0 none).isSome = true ∧
    (nf_find_hook_list linux emptyNetOld 0 0 none).isSome = true ∧
    (nf_hook_entry_head linux emptyNet linux.NFPROTO_IPV4 linux.NF_MAX_HOOKS none).isNone
      = true ∧
    (nf_hook_entry_head414 linux oneHookNet414 linux.NFPROTO_IPV4 linux.NF_MAX_HOOKS
      none).isSome = true ∧
    (nf_find_hook_list linux emptyNetOld linux.NFPROTO_IPV4 linux.NF_MAX_HOOKS
      none).isSome = true := by
  decide

/-- C2 (amended): the 4.14 `nf_hook_entry_head` and `nf_find_hook_list` return `NULL`
exactly when the family is the network-device one and not (`hooknum` is
`NF_NETDEV_INGRESS` and an interface of the namespace is supplied); for every other
family they return the computed pointer for every `hooknum`, which they do not
validate. Where the 4.14 locator returns `NULL`, the 4.16+ locator of a
namespace at the same address returns `NULL` as well. -/
theorem old_locators_contract (c : KConsts) (n : net414) (m : netOld) (pf : Int)
    (hooknum : Nat) (dev : Option net_device) (devOld : Option net_deviceOld) :
    ((nf_hook_entry_head414 c n pf hooknum dev).isNone = true ↔
      pf = c.NFPROTO_NETDEV ∧
        ¬ (hooknum = c.NF_NETDEV_INGRESS ∧ ∃ d, dev = some d ∧ dev_net d = n.addr)) ∧
    ((nf_find_hook_list c m pf hooknum devOld).isNone = true ↔
      pf = c.NFPROTO_NETDEV ∧
        ¬ (hooknum = c.NF_NETDEV_INGRESS ∧
          ∃ d, devOld = some d ∧ dev_netOld d = m.addr)) ∧
    (pf ≠ c.NFPROTO_NETDEV →
      nf_hook_entry_head414 c n pf hooknum dev = some (.hooks pf hooknum) ∧
      nf_find_hook_list c m pf hooknum devOld = some (.hooks pf hooknum)) ∧
    (∀ nf : netns_nf, (nf_hook_entry_head414 c n pf hooknum dev).isNone = true →
      (nf_hook_entry_head c ⟨n.addr, nf⟩ pf hooknum dev).isNone = true) := by
  refine ⟨?_, ?_, ?_, ?_⟩
  · unfold nf_hook_entry_head414
    by_cases e0 : pf = c.NFPROTO_NETDEV
    · rcases dev with _ | d
      · by_cases e : hooknum = c.NF_NETDEV_INGRESS <;> simp [*]
      · by_cases e : hooknum = c.NF_NETDEV_INGRESS <;>
          by_cases e2 : dev_net d = n.addr <;> simp [*]
    · simp [*]
  · unfold nf_find_hook_list
    by_cases e0 : pf = c.NFPROTO_NETDEV
    · rcases devOld with _ | d
      · by_cases e : hooknum = c.NF_NETDEV_INGRESS <;> simp [*]
      · by_cases e : hooknum = c.NF_NETDEV_INGRESS <;>
          by_cases e2 : dev_netOld d = m.addr <;> simp [*]
    · simp [*]
  · intro e0
    simp [nf_hook_entry_head414, nf_find_hook_list, e0]
  · intro nf
    unfold nf_hook_entry_head414 nf_hook_entry_head
    by_cases e0 : pf = c.NFPROTO_NETDEV
    · rcases dev with _ | d
      · by_cases e : hooknum = c.NF_NETDEV_INGRESS <;> simp [*]
      · by_cases e : hooknum = c.NF_NETDEV_INGRESS <;>
          by_cases e2 : dev_net d = n.addr <;> simp [*]
    · simp [*]

/-- Witness of C2 (amended): the 4.14 locator returns the computed pointer for
IPv4 with hook number `NF_MAX_HOOKS`, and `NULL` for the network-device family
without an interface, where the 4.16+ locator returns `NULL` too. -/
theorem old_locators_contract_witness :
    nf_hook_entry_head414 linux oneHookNet414 2 8 none = some (.hooks 2 8) ∧
    (nf_hook_entry_head linux ⟨oneHookNet414.addr, emptyNet.nf⟩ 5 0 none).isNone = true :=
  ⟨((old_locators_contract linux oneHookNet414 emptyNetOld 2 8 none none).2.2.1
      (by decide)).1,
    (old_locators_contract linux oneHookNet414 emptyNetOld 5 0 none none).2.2.2
      emptyNet.nf (by decide)⟩

/-! ## Lemmas on the sweep -/

theorem analyze_hooks_eq_sweepFlat {K S : Type} (c : KConsts) (env : Env)
    (head : K → Int → Nat → Option S) (deref : K → S → Slot) (i : Nat) (js : List Nat)
    (w : World K) :
    analyze_hooks c env head deref i js w
      = sweepFlat c env head deref (js.map (fun j => (i, j))) w := by
  induction js generalizing w with
  | nil => rfl
  | cons j js ih =>
    simp only [analyze_hooks, List.map_cons, sweepFlat]
    cases head w.kernel (i : Int) j with
    | none => rfl
    | some pp =>
      dsimp only
      cases deref w.kernel pp with
      | none => exact ih w
      | some e => exact ih _

theorem sweepFlat_append {K S : Type} (c : KConsts) (env : Env)
    (head : K → Int → Nat → Option S) (deref : K → S → Slot) (xs ys : List (Nat × Nat))
    (w : World K) :
    sweepFlat c env head deref (xs ++ ys) w
      = match sweepFlat c env head deref xs w with
        | (some r, w1) => (some r, w1)
        | (none, w1) => sweepFlat c env head deref ys w1 := by
  induction xs generalizing w with
  | nil => rfl
  | cons p xs ih =>
    simp only [List.cons_append, sweepFlat]
    cases head w.kernel (p.1 : Int) p.2 with
    | none => rfl
    | some pp =>
      dsimp only
      cases deref w.kernel pp with
      | none => exact ih w
      | some e => exact ih _

theorem analyze_families_eq_sweepFlat {K S : Type} (c : KConsts) (env : Env)
    (head : K → Int → Nat → Option S) (deref : K → S → Slot) (fs : List Nat)
    (w : World K) :
    analyze_families c env head deref fs w
      = sweepFlat c env head deref
          (fs.flatMap (fun i => (List.range c.NF_MAX_HOOKS).map (fun j => (i, j)))) w := by
  induction fs generalizing w with
  | nil => rfl
  | cons i fs ih =>
    simp only [analyze_families, List.flatMap_cons, sweepFlat_append,
      analyze_hooks_eq_sweepFlat]
    rcases sweepFlat c env head deref
      ((List.range c.NF_MAX_HOOKS).map (fun j => (i, j))) w with ⟨r, w1⟩
    cases r with
    | none => exact ih w1
    | some r => rfl

theorem sweepFlat_spec {K S : Type} (c : KConsts) (env : Env)
    (head : K → Int → Nat → Option S) (deref : K → S → Slot) (ps : List (Nat × Nat))
    (w : World K) :
    (sweepFlat c env head deref ps w).2.kernel = w.kernel ∧
    findings (sweepFlat c env head deref ps w).2.trace
      = findings w.trace ++ sweepFindings env (head w.kernel) (deref w.kernel) ps ∧
    (sweepFlat c env head deref ps w).1
      = if ps.all (validPair (head w.kernel)) then none else some (-c.EINVAL) := by
  induction ps generalizing w with
  | nil => simp [sweepFlat, sweepFindings]
  | cons p ps ih =>
    simp only [sweepFlat]
    cases h : head w.kernel (p.1 : Int) p.2 with
    | none => simp [sweepFindings, validPair, h]
    | some pp =>
      dsimp only
      cases h2 : deref w.kernel pp with
      | none =>
        dsimp only
        obtain ⟨a, b, d⟩ := ih w
        refine ⟨a, ?_, ?_⟩
        · rw [b]
          simp [sweepFindings, validPair, pairFindings, h, h2, slotFindings]
        · rw [d]
          simp only [List.all_cons, validPair, h, Option.isSome_some, Bool.true_and]
      | some e =>
        dsimp only
        obtain ⟨a, b, d⟩ := ih (search_hooks env e w)
        rw [search_hooks_kernel] at a b d
        refine ⟨a, ?_, ?_⟩
        · rw [b, search_hooks_findings]
          simp [sweepFindings, validPair, pairFindings, h, h2, slotFindings]
        · rw [d]
          simp only [List.all_cons, validPair, h, Option.isSome_some, Bool.true_and]

theorem analyze_with_spec {K S : Type} (c : KConsts) (env : Env)
    (head : K → Int → Nat → Option S) (deref : K → S → Slot) (w : World K) :
    (analyze_with c env head deref w).2.kernel = w.kernel ∧
    findings (analyze_with c env head deref w).2.trace
      = findings w.trace
        ++ sweepFindings env (head w.kernel) (deref w.kernel) (sweepPairs c) ∧
    (analyze_with c env head deref w).1 = sweepStatus c (head w.kernel) (sweepPairs c) := by
  have key : analyze_with c env head deref w
      = match sweepFlat c env head deref (sweepPairs c)
          (w.emit (.INFO "Analyzing Netfilter Hooks\n")) with
        | (some r, w1) => (r, w1)
        | (none, w1) => (0, w1) := by
    unfold analyze_with
    simp only [analyze_families_eq_sweepFlat]
    rfl
  have hf : findings (w.emit (.INFO "Analyzing Netfilter Hooks\n")).trace
      = findings w.trace := by
    simp [emit_trace, findings]
  obtain ⟨a, b, d⟩ := sweepFlat_spec c env head deref (sweepPairs c)
    (w.emit (.INFO "Analyzing Netfilter Hooks\n"))
  rw [emit_kernel] at a b d
  rw [hf] at b
  rw [key]
  rcases hs : sweepFlat c env head deref (sweepPairs c)
    (w.emit (.INFO "Analyzing Netfilter Hooks\n")) with ⟨r, w1⟩
  rw [hs] at a b d
  cases r with
  | none =>
    refine ⟨a, b, ?_⟩
    by_cases hv : (sweepPairs c).all (validPair (head w.kernel)) = true
    · simp [sweepStatus, hv]
    · simp [hv] at d
  | some r =>
    refine ⟨a, b, ?_⟩
    by_cases hv : (sweepPairs c).all (validPair (head w.kernel)) = true
    · simp [hv] at d
    · simp only [hv] at d
      simp only [sweepStatus, hv]
      simpa using d

theorem sweepFindings_eq_table {S : Type} (env : Env) (head : Int → Nat → Option S)
    (deref : S → Slot) (table : Nat × Nat → Slot)
    (h : ∀ p pp, head (p.1 : Int) p.2 = some pp → deref pp = table p)
    (ps : List (Nat × Nat)) :
    sweepFindings env head deref ps
      = (ps.takeWhile (validPair head)).flatMap (fun p => slotFindings env (table p)) := by
  unfold sweepFindings
  induction ps with
  | nil => rfl
  | cons p ps ih =>
    rw [List.takeWhile_cons]
    cases hh : head (p.1 : Int) p.2 with
    | none => simp [validPair, hh]
    | some pp =>
      have hv : validPair head p = true := by simp [validPair, hh]
      rw [if_pos hv, List.flatMap_cons, List.flatMap_cons, ih]
      congr 1
      simp only [pairFindings, hh, h p pp hh]

theorem located_reads_tableAt (c : KConsts) (n : net) (p : Nat × Nat) (pp : SlotRef)
    (h : nf_hook_entry_head c n (p.1 : Int) p.2 none = some pp) :
    nf_entry_dereference n pp = tableAt c n p := by
  unfold nf_hook_entry_head at h
  unfold tableAt
  by_cases e0 : (p.1 : Int) = c.NFPROTO_NETDEV
  · rw [if_pos e0] at h
    by_cases e : p.2 = c.NF_NETDEV_INGRESS
    · rw [if_pos e] at h
      exact absurd h (by simp)
    · rw [if_neg e] at h
      exact absurd h (by simp)
  · rw [if_neg e0] at h
    by_cases e1 : (p.1 : Int) = c.NFPROTO_ARP
    · rw [if_pos e1] at h
      rw [if_pos e1]
      by_cases e : n.nf.hooks_arp.length ≤ p.2
      · rw [if_pos e] at h
        exact absurd h (by simp)
      · rw [if_neg e] at h
        cases Option.some.inj h
        simp [nf_entry_dereference]
    · rw [if_neg e1] at h
      rw [if_neg e1]
      by_cases e2 : (p.1 : Int) = c.NFPROTO_BRIDGE
      · rw [if_pos e2] at h
        rw [if_pos e2]
        by_cases e : n.nf.hooks_bridge.length ≤ p.2
        · rw [if_pos e] at h
          exact absurd h (by simp)
        · rw [if_neg e] at h
          cases Option.some.inj h
          simp [nf_entry_dereference]
      · rw [if_neg e2] at h
        rw [if_neg e2]
        by_cases e3 : (p.1 : Int) = c.NFPROTO_IPV4
        · rw [if_pos e3] at h
          rw [if_pos e3]
          by_cases e : n.nf.hooks_ipv4.length ≤ p.2
          · rw [if_pos e] at h
            exact absurd h (by simp)
          · rw [if_neg e] at h
            cases Option.some.inj h
            simp [nf_entry_dereference]
        · rw [if_neg e3] at h
          rw [if_neg e3]
          by_cases e4 : (p.1 : Int) = c.NFPROTO_IPV6
          · rw [if_pos e4] at h
            rw [if_pos e4]
            by_cases e : n.nf.hooks_ipv6.length ≤ p.2
            · rw [if_pos e] at h
              exact absurd h (by simp)
            · rw [if_neg e] at h
              cases Option.some.inj h
              simp [nf_entry_dereference]
          · rw [if_neg e4] at h
            rw [if_neg e4]
            by_cases e5 : c.CONFIG_DECNET = true ∧ (p.1 : Int) = c.NFPROTO_DECNET
            · rw [if_pos e5] at h
              rw [if_pos e5]
              by_cases e : n.nf.hooks_decnet.length ≤ p.2
              · rw [if_pos e] at h
                exact absurd h (by simp)
              · rw [if_neg e] at h
                cases Option.some.inj h
                simp [nf_entry_dereference]
            · rw [if_neg e5] at h
              exact absurd h (by simp)

theorem located414_reads_hooks (c : KConsts) (n : net414) (p : Nat × Nat)
    (pp : SlotRef414)
    (h : nf_hook_entry_head414 c n (p.1 : Int) p.2 none = some pp) :
    nf_entry_dereference414 n pp = n.hooks (p.1 : Int) p.2 := by
  unfold nf_hook_entry_head414 at h
  by_cases e0 : (p.1 : Int) = c.NFPROTO_NETDEV
  · by_cases e : p.2 = c.NF_NETDEV_INGRESS <;> simp [e0, e] at h
  · simp only [ne_eq, e0, not_false_eq_true, if_true] at h
    cases Option.some.inj h
    rfl

/-! ## Properties of `analyze_netfilter` -/

/-- C3: the 4.16+ and the 4.14 `analyze_netfilter` visit the pairs (family, hook
number) in row-major order. The findings they add are those of the tables the kernel
state holds at the pairs strictly before the first pair their locator returns `NULL`
for, in sweep order: for 4.16+ element `j` of the array of family `i`
(`tableAt`), for 4.14 the entry `hooks[i][j]`. An absent table adds no finding and
does not stop the sweep. They return `-EINVAL` when there is a pair with `NULL`, and
otherwise add the findings of every table and return `0`. -/
theorem analyze_netfilter_sweep (c : KConsts) (env : Env) (w : World net)
    (v : World net414) :
    findings (analyze_netfilter c env w).2.trace
      = findings w.trace
        ++ ((sweepPairs c).takeWhile
              (fun p => (nf_hook_entry_head c w.kernel (p.1 : Int) p.2 none).isSome)).flatMap
            (fun p => match tableAt c w.kernel p with
              | none => []
              | some e => (List.range e.num_hook_entries).map
                  (fun k => Event.ALERT hookFmt (reportedName env (e.hooks k).hook))) ∧
    (analyze_netfilter c env w).1
      = (if (sweepPairs c).all
            (fun p => (nf_hook_entry_head c w.kernel (p.1 : Int) p.2 none).isSome)
          then 0 else -c.EINVAL) ∧
    findings (analyze_netfilter414 c env v).2.trace
      = findings v.trace
        ++ ((sweepPairs c).takeWhile
              (fun p => (nf_hook_entry_head414 c v.kernel (p.1 : Int) p.2 none).isSome)).flatMap
            (fun p => match v.kernel.hooks (p.1 : Int) p.2 with
              | none => []
              | some e => (List.range e.num_hook_entries).map
                  (fun k => Event.ALERT hookFmt (reportedName env (e.hooks k).hook))) ∧
    (analyze_netfilter414 c env v).1
      = (if (sweepPairs c).all
            (fun p => (nf_hook_entry_head414 c v.kernel (p.1 : Int) p.2 none).isSome)
          then 0 else -c.EINVAL) := by
  obtain ⟨_, a1, a2⟩ := analyze_with_spec c env
    (fun n pf j => nf_hook_entry_head c n pf j none) nf_entry_dereference w
  obtain ⟨_, b1, b2⟩ := analyze_with_spec c env
    (fun n pf j => nf_hook_entry_head414 c n pf j none) nf_entry_dereference414 v
  refine ⟨?_, a2, ?_, b2⟩
  · rw [analyze_netfilter, a1,
      sweepFindings_eq_table env _ _ (tableAt c w.kernel)
        (fun p pp h => located_reads_tableAt c w.kernel p pp h)]
    rfl
  · rw [analyze_netfilter414, b1,
      sweepFindings_eq_table env _ _ (fun p => v.kernel.hooks (p.1 : Int) p.2)
        (fun p pp h => located414_reads_hooks c v.kernel p pp h)]
    rfl

/-- C4 (the code at the failing input): in the namespace `emptyNet`, every slot of
which holds the absent table, the 4.16+ sweep under the kernel's numbering emits no
finding and returns `-EINVAL = -22`, not `0`. -/
theorem empty_sweep_returns_einval :
    (emptyNet.nf.hooks_arp ++ emptyNet.nf.hooks_bridge ++ emptyNet.nf.hooks_ipv4
      ++ emptyNet.nf.hooks_ipv6 ++ emptyNet.nf.hooks_decnet).all Option.isNone = true ∧
    (analyze_netfilter linux envM (World.fresh emptyNet)).1 = -22 ∧
    findings (analyze_netfilter linux envM (World.fresh emptyNet)).2.trace = [] := by
  decide

/-- C5 (the code at the failing input): in the namespace `oneHookNet` the only hook
is at IPv4, hook number 0, with its callback at 4100 inside the module `M` of the
registry `envM`; the 4.16+ sweep under the kernel's numbering emits no finding and
returns `-EINVAL = -22`. -/
theorem one_hook_sweep_finds_nothing :
    (envM.get_module_from_addr 4100).map (fun mod => mod.name) = some "M" ∧
    nf_entry_dereference oneHookNet (.hooks_ipv4 0) = some (oneHook 4100) ∧
    (analyze_netfilter linux envM (World.fresh oneHookNet)).1 = -22 ∧
    findings (analyze_netfilter linux envM (World.fresh oneHookNet)).2.trace = [] := by
  refine ⟨by decide, rfl, by decide, by decide⟩

/-- C10: when family number 0 is none of ARP, bridge, IPv4, IPv6 and (if enabled)
DECnet, and `NFPROTO_NUMPROTO` and `NF_MAX_HOOKS` are positive, the 4.16+
`analyze_netfilter` returns `-EINVAL` in every kernel state, having done nothing but
print its `INFO` line: it emits no finding and never reaches `search_hooks`. -/
theorem analyze_netfilter_always_einval (c : KConsts) (env : Env) (w : World net)
    (hn : 0 < c.NFPROTO_NUMPROTO) (hm : 0 < c.NF_MAX_HOOKS)
    (harp : c.NFPROTO_ARP ≠ 0) (hbr : c.NFPROTO_BRIDGE ≠ 0) (hv4 : c.NFPROTO_IPV4 ≠ 0)
    (hv6 : c.NFPROTO_IPV6 ≠ 0) (hdn : c.CONFIG_DECNET = true → c.NFPROTO_DECNET ≠ 0) :
    (analyze_netfilter c env w).1 = -c.EINVAL ∧
    (analyze_netfilter c env w).2 = w.emit (.INFO "Analyzing Netfilter Hooks\n") ∧
    findings (analyze_netfilter c env w).2.trace = findings w.trace := by
  have hnull : ∀ n : net, nf_hook_entry_head c n ((0 : Nat) : Int) 0 none = none := by
    intro n
    have hz : ((0 : Nat) : Int) = 0 := rfl
    rw [hz]
    unfold nf_hook_entry_head
    have a1 := Ne.symm harp
    have a2 := Ne.symm hbr
    have a3 := Ne.symm hv4
    have a4 := Ne.symm hv6
    by_cases e0 : (0 : Int) = c.NFPROTO_NETDEV
    · rw [if_pos e0]
      by_cases e : 0 = c.NF_NETDEV_INGRESS
      · rw [if_pos e]
      · rw [if_neg e]
    · have a5 : ¬ (c.CONFIG_DECNET = true ∧ (0 : Int) = c.NFPROTO_DECNET) :=
        fun h => hdn h.1 h.2.symm
      rw [if_neg e0, if_neg a1, if_neg a2, if_neg a3, if_neg a4, if_neg a5]
  obtain ⟨n, hn2⟩ : ∃ n, c.NFPROTO_NUMPROTO = n + 1 := ⟨c.NFPROTO_NUMPROTO - 1, by omega⟩
  obtain ⟨m, hm2⟩ : ∃ m, c.NF_MAX_HOOKS = m + 1 := ⟨c.NF_MAX_HOOKS - 1, by omega⟩
  have hrun : analyze_netfilter c env w
      = (-c.EINVAL, w.emit (.INFO "Analyzing Netfilter Hooks\n")) := by
    unfold analyze_netfilter analyze_with
    rw [hn2]
    simp only [List.range_succ_eq_map, analyze_families]
    rw [hm2]
    simp only [List.range_succ_eq_map, analyze_hooks, hnull]
  rw [hrun]
  exact ⟨rfl, rfl, by simp [emit_trace, findings]⟩

/-- Witness of C10: the kernel's numbering, in the namespace with one IPv4 hook. -/
theorem analyze_netfilter_always_einval_witness :
    (0 < linux.NFPROTO_NUMPROTO ∧ 0 < linux.NF_MAX_HOOKS ∧ linux.NFPROTO_ARP ≠ 0 ∧
      linux.NFPROTO_BRIDGE ≠ 0 ∧ linux.NFPROTO_IPV4 ≠ 0 ∧ linux.NFPROTO_IPV6 ≠ 0 ∧
      (linux.CONFIG_DECNET = true → linux.NFPROTO_DECNET ≠ 0)) ∧
    (analyze_netfilter linux envM (World.fresh oneHookNet)).1 = -linux.EINVAL ∧
    (analyze_netfilter linux envM (World.fresh oneHookNet)).2
      = (World.fresh oneHookNet).emit (.INFO "Analyzing Netfilter Hooks\n") ∧
    findings (analyze_netfilter linux envM (World.fresh oneHookNet)).2.trace
      = findings (World.fresh oneHookNet).trace :=
  ⟨by decide,
    analyze_netfilter_always_einval linux envM (World.fresh oneHookNet) (by decide)
      (by decide) (by decide) (by decide) (by decide) (by decide) (by decide)⟩

/-- Witness of C7: the alert at position 2 for `threeHooks` names the owner of entry 2. -/
theorem search_hooks_visits_each_once_witness :
    2 < threeHooks.num_hook_entries ∧
    (tableFindings envM threeHooks)[2]?
      = some (Event.ALERT hookFmt (reportedName envM (threeHooks.hooks 2).hook)) :=
  ⟨by decide,
    (search_hooks_visits_each_once envM threeHooks (World.fresh ())).2.2.2.1 2
      (by decide)⟩

end Tyton
